import Mathlib

/-!
Shallow embedding of the asynchronous job execution and cancellation
subsystem of the usql-mcp server, translated from the TypeScript sources:

* `src/usql/job-manager.ts` — in-memory job store (`JobManager`)
* `src/usql/process-executor.ts` — subprocess runner (`executeUsqlCommand`)
* the background promotion wrapper (`withBackgroundSupport`)
* `src/tools/get-job-status.ts` / `src/tools/cancel-job.ts` — tool handlers
* `src/utils/error-handler.ts` — error formatting

JavaScript `Map<string, V>` is modelled as an association list with
key-replacing insertion; timestamps (`Date.now()`, `Date` objects) are
modelled as integers (milliseconds); `unknown` result payloads are a type
parameter `α`.
-/

set_option autoImplicit false

universe u

/-- Association-list lookup, modelling `Map.get`: the first entry whose key
matches is returned. -/
def mget {β : Type u} : List (String × β) → String → Option β
  | [], _ => none
  | (k, v) :: rest, id => if k = id then some v else mget rest id

/-- Association-list insertion, modelling `Map.set`: replaces the first
entry with the given key, or appends a new entry when the key is absent. -/
def mset {β : Type u} : List (String × β) → String → β → List (String × β)
  | [], id, v => [(id, v)]
  | (k, w) :: rest, id, v =>
      if k = id then (id, v) :: rest else (k, w) :: mset rest id v

/-- Well-formedness of the association-list map: keys are distinct, as they
are for a JavaScript `Map`. -/
abbrev MapWF {β : Type u} (l : List (String × β)) : Prop :=
  (l.map Prod.fst).Nodup

/-- Structured MCP error value (interface `McpError` in `types/index.ts`):
an error kind string, a human message, and an optional details record
(modelled as a string-keyed association list of string renderings). -/
structure McpError where
  error : String
  message : String
  details : Option (List (String × String))
deriving DecidableEq, Repr

/-- Job status (the `status` field of `JobState` in `job-manager.ts`). -/
inductive JobStatus
  | running
  | completed
  | failed
  | cancelled
deriving DecidableEq, Repr

/-- String rendering of a status, as interpolated into messages by the
TypeScript code. -/
def statusString : JobStatus → String
  | .running => "running"
  | .completed => "completed"
  | .failed => "failed"
  | .cancelled => "cancelled"

/-- One job record (interface `JobState` in `job-manager.ts`). `α` is the
type of the `unknown` result payload. -/
structure JobState (α : Type) where
  id : String
  status : JobStatus
  startedAt : Int
  completedAt : Option Int
  result : Option α
  error : Option McpError
  toolName : String
  connectionStringHash : Option String
deriving DecidableEq, Repr

/-- State of the `JobManager` class: the `jobs` map, the `jobCancellers`
map (an `AbortController` is modelled by its aborted flag), and the
configured `resultTTL` in milliseconds. -/
structure JobManagerState (α : Type) where
  jobs : List (String × JobState α)
  jobCancellers : List (String × Bool)
  resultTTL : Int
deriving DecidableEq, Repr

/-- The `JobManager` state right after construction (`new JobManager(ttl)`):
empty maps, the given TTL (default 3600000 ms). -/
def initJobManager (α : Type) (ttl : Int) : JobManagerState α :=
  { jobs := [], jobCancellers := [], resultTTL := ttl }

/-- `JobManager.createJob(toolName, connectionStringHash)`: inserts a fresh
`running` record. The generated `randomUUID()` and `new Date()` are passed
in as `jobId` and `now`. -/
def createJob {α : Type} (st : JobManagerState α) (jobId toolName : String)
    (connectionStringHash : Option String) (now : Int) :
    JobManagerState α × String :=
  let jobState : JobState α :=
    { id := jobId
      status := .running
      startedAt := now
      completedAt := none
      result := none
      error := none
      toolName := toolName
      connectionStringHash := connectionStringHash }
  ({ st with jobs := mset st.jobs jobId jobState }, jobId)

/-- `JobManager.completeJob(jobId, result)`: a silent no-op when the id is
unknown; otherwise sets `status`, `completedAt` and `result` in place
(note: no check of the current status, and `error` is left as it was). -/
def completeJob {α : Type} (st : JobManagerState α) (jobId : String)
    (now : Int) (result : α) : JobManagerState α :=
  match mget st.jobs jobId with
  | none => st
  | some job =>
      { st with
        jobs := mset st.jobs jobId
          { job with status := .completed, completedAt := some now,
                     result := some result } }

/-- `JobManager.failJob(jobId, error)`: a silent no-op when the id is
unknown; otherwise sets `status`, `completedAt` and `error` in place
(again with no check of the current status; `result` is left as it was). -/
def failJob {α : Type} (st : JobManagerState α) (jobId : String)
    (now : Int) (error : McpError) : JobManagerState α :=
  match mget st.jobs jobId with
  | none => st
  | some job =>
      { st with
        jobs := mset st.jobs jobId
          { job with status := .failed, completedAt := some now,
                     error := some error } }

/-- `JobManager.setJobCanceller(jobId, controller)`: registers a fresh
(not yet aborted) controller for the job. -/
def setJobCanceller {α : Type} (st : JobManagerState α) (jobId : String) :
    JobManagerState α :=
  { st with jobCancellers := mset st.jobCancellers jobId false }

/-- The cancellation error payload written by `cancelJob`. -/
def jobCancelledError : McpError :=
  { error := "JobCancelled", message := "Job was cancelled by user", details := none }

/-- Return value of `JobManager.cancelJob`. -/
structure CancelResult where
  success : Bool
  message : String
deriving DecidableEq, Repr

/-- `JobManager.cancelJob(jobId)`: fails when the id is unknown or the job
is not `running`; otherwise aborts the registered controller (if any),
marks the job `cancelled` with the standard error payload and a completion
timestamp, and reports success. -/
def cancelJob {α : Type} (st : JobManagerState α) (jobId : String)
    (now : Int) : JobManagerState α × CancelResult :=
  match mget st.jobs jobId with
  | none => (st, { success := false, message := "Job not found: " ++ jobId })
  | some job =>
      if job.status ≠ JobStatus.running then
        (st, { success := false,
               message := "Job is not running (status: " ++ statusString job.status ++ ")" })
      else
        let cancellers :=
          match mget st.jobCancellers jobId with
          | some _ => mset st.jobCancellers jobId true
          | none => st.jobCancellers
        ({ st with
           jobs := mset st.jobs jobId
             { job with status := .cancelled, completedAt := some now,
                        error := some jobCancelledError },
           jobCancellers := cancellers },
         { success := true, message := "Job " ++ jobId ++ " cancelled successfully" })

/-- `JobManager.getJob(jobId)`: lookup returning a copy of the record (the
copy is implicit in a pure model). -/
def getJob {α : Type} (st : JobManagerState α) (jobId : String) :
    Option (JobState α) :=
  mget st.jobs jobId

/-- The per-job expiry test inside `JobManager.cleanup`: only jobs that are
not `running` and have a `completedAt` older than the TTL are deleted. -/
def shouldExpire {α : Type} (now ttl : Int) (job : JobState α) : Bool :=
  if job.status = JobStatus.running then false
  else
    match job.completedAt with
    | none => false
    | some t => decide (now - t > ttl)

/-- `JobManager.cleanup()`: one sweep at time `now`; deletes every expired
job and its canceller entry. -/
def cleanup {α : Type} (st : JobManagerState α) (now : Int) :
    JobManagerState α :=
  { st with
    jobs := st.jobs.filter (fun p => ! shouldExpire now st.resultTTL p.2),
    jobCancellers := st.jobCancellers.filter (fun p =>
      match mget st.jobs p.1 with
      | some job => ! shouldExpire now st.resultTTL job
      | none => true) }

/-- `JobManager.getRunningJobs()`: snapshot of the records still `running`. -/
def getRunningJobs {α : Type} (st : JobManagerState α) : List (JobState α) :=
  (st.jobs.map Prod.snd).filter (fun job => job.status = JobStatus.running)

/-!
Process Runner (`src/usql/process-executor.ts`, `executeUsqlCommand`).

The promise body is event-driven: a `setTimeout` callback, `data` events on
stdout/stderr, and the child process `error` / `close` events. We model one
run as a fold over the sequence of events delivered by the Node runtime,
recording every call of `resolve` / `reject` in `settleAttempts` and every
`process.kill` in `killsSent`. `ValidEvents` captures the guarantees the runtime itself gives about the timer: the `setTimeout` callback fires at most once,
only when the timer was armed (a positive numeric `timeout`) and not yet
cancelled by the `clearTimeout` in the `error` / `close` handlers.
-/

/-- The successful resolution value of `executeUsqlCommand`
(interface `UsqlExecutionResult`). -/
structure UsqlExecutionResult where
  stdout : String
  stderr : String
  exitCode : Int
deriving DecidableEq, Repr

/-- An error built by `createUsqlError(code, message, details)`; the timeout
path passes `details = { timeout, command.substring(0, 100) }`, the fields
kept here. -/
structure UsqlErrorT where
  code : String
  message : String
  detailTimeoutMs : Option Int
  detailCommand : Option String
deriving DecidableEq, Repr

/-- First `n` UTF-16 units of a string (`s.substring(0, n)`); all strings
involved are ASCII so characters coincide with UTF-16 units. -/
def substringTo (s : String) (n : Nat) : String :=
  String.mk (s.data.take n)

/-- The rejection value built in the `setTimeout` callback. -/
def queryTimeoutError (timeoutMs : Int) (command : String) : UsqlErrorT :=
  { code := "QueryTimeout"
    message := "Query execution timed out after " ++ toString timeoutMs ++
      "ms. Consider simplifying your query or increasing the timeout."
    detailTimeoutMs := some timeoutMs
    detailCommand := some (substringTo command 100) }

/-- One call of `resolve` or `reject` on the promise of
`executeUsqlCommand`. -/
inductive SettleAttempt
  | resolve (r : UsqlExecutionResult)
  | rejectUsql (e : UsqlErrorT)
  | rejectSystem (message : String)
deriving DecidableEq, Repr

/-- An event delivered to the handlers installed by `executeUsqlCommand`:
the timer callback, a stdout/stderr `data` chunk, the child `error` event,
or the child `close` event (whose exit code is `null` — here `none` — when
the process was terminated by a signal). -/
inductive PEvent
  | timerFire
  | stdoutData (chunk : String)
  | stderrData (chunk : String)
  | errorEvent (message : String)
  | closeEvent (exitCode : Option Int)
deriving DecidableEq, Repr

/-- Mutable state of one `executeUsqlCommand` promise body. -/
structure PEState where
  stdout : String
  stderr : String
  timedOut : Bool
  settleAttempts : List SettleAttempt
  killsSent : Nat
deriving DecidableEq, Repr

/-- Initial state of the promise body (`stdout = ""`, `stderr = ""`,
`timedOut = false`). -/
def initPE : PEState :=
  { stdout := "", stderr := "", timedOut := false, settleAttempts := [], killsSent := 0 }

/-- JavaScript `exitCode || 0`: `null` and `0` both yield `0`. -/
def jsOrZero : Option Int → Int
  | none => 0
  | some c => if c = 0 then 0 else c

/-- One event handler step of `executeUsqlCommand`, translated from the
installed callbacks:
the timer callback sets `timedOut`, kills the process group and rejects
with the timeout error; `data` events append to the buffers; the `error`
handler rejects only `if (!timedOut)`; the `close` handler returns early
`if (timedOut)` and otherwise resolves with the accumulated buffers and
`exitCode || 0`. -/
def peStep (command : String) (timeout : Option Int) (st : PEState) :
    PEvent → PEState
  | .timerFire =>
      match timeout with
      | some t =>
          if 0 < t then
            { st with
              timedOut := true
              killsSent := st.killsSent + 1
              settleAttempts := st.settleAttempts ++
                [SettleAttempt.rejectUsql (queryTimeoutError t command)] }
          else st
      | none => st
  | .stdoutData chunk => { st with stdout := st.stdout ++ chunk }
  | .stderrData chunk => { st with stderr := st.stderr ++ chunk }
  | .errorEvent message =>
      if st.timedOut then st
      else { st with settleAttempts := st.settleAttempts ++
              [SettleAttempt.rejectSystem message] }
  | .closeEvent exitCode =>
      if st.timedOut then st
      else { st with settleAttempts := st.settleAttempts ++
              [SettleAttempt.resolve
                { stdout := st.stdout, stderr := st.stderr,
                  exitCode := jsOrZero exitCode }] }

/-- Fold of `peStep` over an event sequence, from the initial state. -/
def runExecutor (command : String) (timeout : Option Int)
    (events : List PEvent) : PEState :=
  events.foldl (peStep command timeout) initPE

/-- Whether the `setTimeout` handle is armed at the start: a numeric,
strictly positive `timeout` option. -/
def timerArmed : Option Int → Bool
  | some t => decide (0 < t)
  | none => false

/-- Node runtime constraint on event sequences: the timer callback fires
only while the handle is armed, the handle fires at most once, and the
`clearTimeout` calls in the `error` and `close` handlers disarm it. -/
def validEvents : List PEvent → Bool → Bool
  | [], _ => true
  | .timerFire :: rest, armed => armed && validEvents rest false
  | .errorEvent _ :: rest, _ => validEvents rest false
  | .closeEvent _ :: rest, _ => validEvents rest false
  | .stdoutData _ :: rest, armed => validEvents rest armed
  | .stderrData _ :: rest, armed => validEvents rest armed

/-- A valid event sequence for a run with the given `timeout` option. -/
abbrev ValidTrace (timeout : Option Int) (events : List PEvent) : Prop :=
  validEvents events (timerArmed timeout) = true

/-!
Background promotion wrapper (`withBackgroundSupport`).

The wrapper races the handler promise against a threshold timer with
`Promise.race`; whichever settles first determines the branch taken, which
we pass in as a `RaceOutcome`. The connection hash is
`Buffer.from(connStr).toString("base64").substring(0, 16)`; `Buffer.from`
produces the UTF-8 bytes of the string, which for the ASCII connection
strings considered here are the character code points.
-/

/-- Bytes of a string under `Buffer.from` (UTF-8); coincides with the
character code points for ASCII input. -/
def strBytes (s : String) : List Nat :=
  s.data.map Char.toNat

/-- The standard base64 alphabet used by `Buffer.toString("base64")`. -/
def base64Alphabet : List Char :=
  "ABCDEFGHIJKLMNOPQRSTUVWXYZabcdefghijklmnopqrstuvwxyz0123456789+/".data

/-- Character of the base64 alphabet at a sextet value. -/
def b64Char (n : Nat) : Char :=
  base64Alphabet.getD n 'A'

/-- Base64 encoding of a byte list, with `=` padding, as produced by
`Buffer.toString("base64")`. -/
def b64Encode : List Nat → List Char
  | [] => []
  | [b1] =>
      [b64Char (b1 / 4), b64Char (b1 % 4 * 16), '=', '=']
  | [b1, b2] =>
      [b64Char (b1 / 4), b64Char (b1 % 4 * 16 + b2 / 16),
       b64Char (b2 % 16 * 4), '=']
  | b1 :: b2 :: b3 :: rest =>
      b64Char (b1 / 4) :: b64Char (b1 % 4 * 16 + b2 / 16) ::
      b64Char (b2 % 16 * 4 + b3 / 64) :: b64Char (b3 % 64) ::
      b64Encode rest

/-- Sextet value of a base64 alphabet character. -/
def b64Val (c : Char) : Nat :=
  (base64Alphabet.indexOf c)

/-- Base64 decoding, the inverse of `b64Encode`; exhibits that the encoding
is reversible. -/
def b64Decode : List Char → List Nat
  | c1 :: c2 :: c3 :: c4 :: rest =>
      let byte1 := b64Val c1 * 4 + b64Val c2 / 16
      if c3 = '=' then [byte1]
      else
        let byte2 := b64Val c2 % 16 * 16 + b64Val c3 / 4
        if c4 = '=' then [byte1, byte2]
        else byte1 :: byte2 :: (b64Val c3 % 4 * 64 + b64Val c4) :: b64Decode rest
  | _ => []

/-- Input of the wrapper, as far as it inspects it: an object that may carry
a string `connection_string` property. -/
structure WrapInput where
  connection_string : Option String
deriving DecidableEq, Repr

/-- The `connectionHash` computed at the top of the wrapped handler:
`Buffer.from(connStr).toString("base64").substring(0, 16)` when the input
carries a string `connection_string`, absent otherwise. -/
def computeConnectionHash (input : WrapInput) : Option String :=
  input.connection_string.map (fun connStr =>
    String.mk ((b64Encode (strBytes connStr)).take 16))

/-- A JavaScript value thrown by a handler, by the shapes that
`formatMcpError` in `error-handler.ts` distinguishes: an object with string
`error` and `message` properties, an object with string `code` and
`message` properties (this also covers `UsqlError` instances, whose `code`
and `message` are strings, so the earlier branch catches them), a plain
`Error`, or anything else (carried by its `String(...)` rendering). -/
inductive JsErrorValue
  | objWithError (error message : String) (details : Option (List (String × String)))
  | objWithCode (code message : String) (details : Option (List (String × String)))
  | jsError (message : String)
  | other (rendering : String)
deriving DecidableEq, Repr

/-- Whether `pat` occurs at the start of `l`. -/
def startsWithL : List Char → List Char → Bool
  | [], _ => true
  | _ :: _, [] => false
  | a :: as, b :: bs => a = b && startsWithL as bs

/-- Whether `pat` occurs anywhere in `l` (JavaScript `String.includes`). -/
def containsL (pat : List Char) : List Char → Bool
  | [] => startsWithL pat []
  | c :: rest => startsWithL pat (c :: rest) || containsL pat rest

/-- JavaScript `s.includes(pat)`. -/
def strIncludes (s pat : String) : Bool :=
  containsL pat.data s.data

/-- `mergeDetails` from `formatMcpError`: `undefined` when both the details carried by the error
and the context are empty, otherwise the spread
`{...details, ...context}` with context keys overriding. -/
def mergeDetails (details : Option (List (String × String)))
    (ctx : List (String × String)) : Option (List (String × String)) :=
  match details, ctx with
  | none, [] => none
  | _, _ => some (ctx.foldl (fun acc kv => mset acc kv.1 kv.2) (details.getD []))

/-- `formatMcpError(error, context)` from `error-handler.ts`, with the
context already reduced to its sanitized key/value entries (the tool
handlers only ever pass `{ jobId }`, which the sanitizer copies through
unchanged). -/
def formatMcpError (e : JsErrorValue) (ctx : List (String × String)) : McpError :=
  match e with
  | .objWithError err msg details =>
      { error := err, message := msg, details := mergeDetails details ctx }
  | .objWithCode code msg details =>
      { error := code, message := msg, details := mergeDetails details ctx }
  | .jsError msg =>
      if strIncludes msg "ENOENT" then
        { error := "UsqlNotFound"
          message := "usql command not found. Please ensure usql is installed and in PATH. See https://github.com/xo/usql#installation"
          details := mergeDetails (some [("originalError", msg)]) ctx }
      else if strIncludes msg "connection refused" || strIncludes msg "ECONNREFUSED" then
        { error := "ConnectionError"
          message := "Database connection refused. Check host, port, and credentials."
          details := mergeDetails (some [("originalError", msg)]) ctx }
      else if strIncludes msg "timeout" then
        { error := "TimeoutError"
          message := "Query execution timed out. Consider simplifying the query or increasing timeout."
          details := mergeDetails none ctx }
      else
        { error := "QueryError", message := msg, details := mergeDetails none ctx }
  | .other rendering =>
      { error := "UnknownError"
        message := "An unexpected error occurred"
        details := mergeDetails (some [("originalError", rendering)]) ctx }

/-- How the handler promise eventually settles: fulfilment with a result of
type `R`, or rejection with a thrown value. -/
inductive HandlerOutcome (R : Type)
  | ok (r : R)
  | err (e : JsErrorValue)
deriving DecidableEq, Repr

/-- Which side of `Promise.race([handlerPromise, thresholdPromise])` settles
first: the handler (with its outcome), or the threshold timer. -/
inductive RaceOutcome (R : Type)
  | handlerFirst (o : HandlerOutcome R)
  | timerFirst
deriving DecidableEq, Repr

/-- The `BackgroundJobResponse` returned on promotion
(`types/index.ts`); `started_at` (an ISO string in the code) is modelled by
the underlying timestamp. -/
structure BackgroundJobResponse where
  status : String
  job_id : String
  message : String
  started_at : Int
deriving DecidableEq, Repr

/-- What the promise of the wrapped handler does for the caller: fulfil with the
result of the handler itself, fulfil with a `BackgroundJobResponse`, or
reject with the value the handler threw. -/
inductive WrapOutcome (R : Type)
  | value (r : R)
  | background (b : BackgroundJobResponse)
  | thrown (e : JsErrorValue)
deriving DecidableEq, Repr

/-- The message placed in a `BackgroundJobResponse`. -/
def backgroundMessage (threshold : Int) : String :=
  "Query is taking longer than " ++ toString threshold ++
  "ms. It will continue running in the background. Use get_job_status with job_id to check progress."

/-- The synchronous part of the handler wrapped by `withBackgroundSupport`, up to
and including the response to the caller. `race` is the winner of
`Promise.race`; `jobId` is the `randomUUID()` drawn inside
`createJob` and `now` the current time, both supplied by the runtime. When
the handler settles first its outcome is propagated untouched and the store
is untouched; when the timer fires first a `running` job is created, an
`AbortController` is registered, and a `BackgroundJobResponse` is
returned. -/
def withBackgroundSupport {R : Type} (toolName : String) (threshold : Int)
    (input : WrapInput) (st : JobManagerState R) (race : RaceOutcome R)
    (jobId : String) (now : Int) : WrapOutcome R × JobManagerState R :=
  let connectionHash := computeConnectionHash input
  match race with
  | .handlerFirst (.ok r) => (.value r, st)
  | .handlerFirst (.err e) => (.thrown e, st)
  | .timerFirst =>
      let created := createJob st jobId toolName connectionHash now
      let st2 := setJobCanceller created.1 created.2
      (.background
        { status := "background"
          job_id := created.2
          message := backgroundMessage threshold
          started_at := now },
       st2)

/-- The continuation attached to `handlerPromise` in the promoted branch:
`completeJob(jobId, res)` on fulfilment, `failJob(jobId, formatMcpError(err))`
on rejection. The handler keeps running; nothing aborts it. -/
def backgroundSettle {R : Type} (st : JobManagerState R) (jobId : String)
    (o : HandlerOutcome R) (now : Int) : JobManagerState R :=
  match o with
  | .ok r => completeJob st jobId now r
  | .err e => failJob st jobId now (formatMcpError e [])

/-!
Tool handlers (`get-job-status.ts`, `cancel-job.ts`). Each handler wraps
its body in a `try`/`catch` whose `catch` rethrows `formatMcpError(error,
input.job_id ? { jobId } : undefined)`; a thrown error therefore reaches
the caller as a fault, modelled by `Except.error`. `wait_seconds` only
delays the status check (`setTimeout`), so the store passed in is the store
as of the moment of the check. The numeric `typeof`/`isFinite` validation
is not modelled (`wait_seconds` is an integer here); the `!input.job_id`
falsiness test is the emptiness test on the string.
-/

/-- The `JobStatusResponse` built by `handleGetJobStatus`. `truthy` models
JavaScript truthiness of the stored `unknown` result payload, used by the
`jobState.result` guard. -/
structure JobStatusResponse (α : Type) where
  status : JobStatus
  job_id : String
  started_at : Int
  elapsed_ms : Int
  result : Option α
  error : Option McpError
deriving DecidableEq, Repr

/-- The context record the handlers pass to `formatMcpError`:
`input.job_id ? { jobId: input.job_id } : undefined`. -/
def jobIdContext (job_id : String) : List (String × String) :=
  if job_id = "" then [] else [("jobId", job_id)]

/-- The `UsqlError` thrown by `handleGetJobStatus` for an unknown id,
already formatted by the `catch` block (its `code`/`message` branch of
`formatMcpError`, with the `{ jobId }` context merged into the details). -/
def jobNotFoundFault (job_id : String) : McpError :=
  formatMcpError
    (.objWithCode "JobNotFound"
      ("Job not found: " ++ job_id ++
        ". The job may have completed and been cleaned up (default cleanup: 1 hour).")
      (some [("jobId", job_id)]))
    (jobIdContext job_id)

/-- `handleGetJobStatus` from `get-job-status.ts`: validates the input,
waits, looks the job up — throwing a formatted `JobNotFound` fault when it
is absent — and otherwise returns the status snapshot, attaching `result`
only to a `completed` job with a truthy result and `error` only to a
`failed` job. -/
def handleGetJobStatus {α : Type} (truthy : α → Bool) (st : JobManagerState α)
    (now : Int) (job_id : String) (wait_seconds : Int) :
    Except McpError (JobStatusResponse α) :=
  if job_id = "" then
    .error (formatMcpError

      (.objWithCode "InvalidInput" "job_id is required and must be a string" none)
      (jobIdContext job_id))
  else if wait_seconds < 1 ∨ wait_seconds > 55 then
    .error (formatMcpError
      (.objWithCode "InvalidInput"
        "wait_seconds must be between 1 and 55 seconds. Use a value less than your MCP client timeout."
        none)
      (jobIdContext job_id))
  else
    match getJob st job_id with
    | none => .error (jobNotFoundFault job_id)
    | some jobState =>
        .ok
          { status := jobState.status
            job_id := job_id
            started_at := jobState.startedAt
            elapsed_ms := now - jobState.startedAt
            result :=
              if jobState.status = JobStatus.completed then
                match jobState.result with
                | some r => if truthy r then some r else none
                | none => none
              else none
            error :=
              if jobState.status = JobStatus.failed then jobState.error
              else none }

/-- The three-way `status` discriminator of `CancelJobResponse`. -/
inductive CancelStatus
  | cancelled
  | not_found
  | not_running
deriving DecidableEq, Repr

/-- `CancelJobResponse` from `cancel-job.ts`. -/
structure CancelJobResponse where
  status : CancelStatus
  job_id : String
  message : String
deriving DecidableEq, Repr

/-- `handleCancelJob` from `cancel-job.ts`: validates the input, calls
`JobManager.cancelJob`, and maps a failed cancellation to a structured
`not_found` / `not_running` response (disambiguated by a `getJob` lookup)
rather than throwing; a successful cancellation yields a structured
`cancelled` response. -/
def handleCancelJob {α : Type} (st : JobManagerState α) (job_id : String)
    (now : Int) : Except McpError (CancelJobResponse × JobManagerState α) :=
  if job_id = "" then
    .error (formatMcpError
      (.objWithCode "InvalidInput" "job_id is required and must be a string" none)
      (jobIdContext job_id))
  else
    let r := cancelJob st job_id now
    if r.2.success = false then
      match getJob r.1 job_id with
      | none => .ok ({ status := .not_found, job_id := job_id, message := r.2.message }, r.1)
      | some _ => .ok ({ status := .not_running, job_id := job_id, message := r.2.message }, r.1)
    else
      .ok ({ status := .cancelled, job_id := job_id, message := r.2.message }, r.1)

/-!
Lemmas about the association-list map, and the claim theorems.
-/

theorem mget_mset_self {β : Type u} (l : List (String × β)) (id : String) (v : β) :
    mget (mset l id v) id = some v := by
  induction l with
  | nil => simp [mget, mset]
  | cons hd tl ih =>
      obtain ⟨k, w⟩ := hd
      by_cases hk : k = id
      · simp [mget, mset, hk]
      · simp [mget, mset, hk, ih]

theorem mget_eq_none_of_not_mem {β : Type u} (l : List (String × β)) (id : String)
    (h : id ∉ l.map Prod.fst) : mget l id = none := by
  induction l with
  | nil => simp [mget]
  | cons hd tl ih =>
      obtain ⟨k, w⟩ := hd
      simp only [List.map_cons, List.mem_cons] at h
      push_neg at h
      have hne : ¬ k = id := fun hh => h.1 hh.symm
      simp [mget, hne, ih h.2]

theorem mget_filter {β : Type u} (l : List (String × β)) (p : String × β → Bool)
    (id : String) (hnd : (l.map Prod.fst).Nodup) :
    mget (l.filter p) id =
      match mget l id with
      | none => none
      | some v => if p (id, v) then some v else none := by
  induction l with
  | nil => simp [mget]
  | cons hd tl ih =>
      obtain ⟨k, w⟩ := hd
      simp only [List.map_cons, List.nodup_cons] at hnd
      by_cases hk : k = id
      · subst hk
        by_cases hp : p (k, w)
        · simp [List.filter_cons, hp, mget]
        · have hsub : mget (tl.filter p) k = none := by
            apply mget_eq_none_of_not_mem
            intro hmem
            obtain ⟨x, hx, hxf⟩ := List.mem_map.mp hmem
            exact hnd.1 (List.mem_map.mpr ⟨x, List.mem_of_mem_filter hx, hxf⟩)
          simp [List.filter_cons, hp, mget, hsub]
      · by_cases hp : p (k, w)
        · simp [List.filter_cons, hp, mget, hk, ih hnd.2]
        · simp [List.filter_cons, hp, mget, hk, ih hnd.2]

theorem noFire_of_inactive (evs : List PEvent)
    (h : validEvents evs false = true) : PEvent.timerFire ∉ evs := by
  induction evs with
  | nil => simp
  | cons e rest ih =>
      cases e with
      | timerFire => simp [validEvents] at h
      | stdoutData c => simp only [validEvents] at h; simp [ih h]
      | stderrData c => simp only [validEvents] at h; simp [ih h]
      | errorEvent m => simp only [validEvents] at h; simp [ih h]
      | closeEvent c => simp only [validEvents] at h; simp [ih h]

theorem foldl_timedOut (cmd : String) (t : Option Int) (evs : List PEvent)
    (st : PEState) (hto : st.timedOut = true) (hnf : PEvent.timerFire ∉ evs) :
    (evs.foldl (peStep cmd t) st).settleAttempts = st.settleAttempts ∧
      (evs.foldl (peStep cmd t) st).killsSent = st.killsSent := by
  induction evs generalizing st with
  | nil => simp
  | cons e rest ih =>
      have hnf2 : PEvent.timerFire ∉ rest := fun hmem => hnf (List.mem_cons_of_mem _ hmem)
      cases e with
      | timerFire => exact absurd (List.mem_cons_self _ _) hnf
      | stdoutData c =>
          simpa [peStep] using ih { st with stdout := st.stdout ++ c } hto hnf2
      | stderrData c =>
          simpa [peStep] using ih { st with stderr := st.stderr ++ c } hto hnf2
      | errorEvent m =>
          simp only [List.foldl_cons, peStep, hto, if_true]
          exact ih st hto hnf2
      | closeEvent c =>
          simp only [List.foldl_cons, peStep, hto, if_true]
          exact ih st hto hnf2

theorem foldl_fire (cmd : String) (t : Int) (ht : 0 < t) (evs : List PEvent)
    (st : PEState) (hto : st.timedOut = false) (hs : st.settleAttempts = [])
    (hk : st.killsSent = 0) (hv : validEvents evs true = true)
    (hm : PEvent.timerFire ∈ evs) :
    (evs.foldl (peStep cmd (some t)) st).settleAttempts
        = [SettleAttempt.rejectUsql (queryTimeoutError t cmd)] ∧
      (evs.foldl (peStep cmd (some t)) st).killsSent = 1 := by
  induction evs generalizing st with
  | nil => simp at hm
  | cons e rest ih =>
      cases e with
      | timerFire =>
          simp only [validEvents, Bool.true_and] at hv
          have hnf := noFire_of_inactive rest hv
          have hrest := foldl_timedOut cmd (some t) rest
            (peStep cmd (some t) st .timerFire) (by simp [peStep, ht]) hnf
          refine ⟨?_, ?_⟩
          · rw [List.foldl_cons, hrest.1]
            simp [peStep, ht, hs]
          · rw [List.foldl_cons, hrest.2]
            simp [peStep, ht, hk]
      | stdoutData c =>
          simp only [validEvents] at hv
          have hm2 : PEvent.timerFire ∈ rest := by
            rcases List.mem_cons.mp hm with hh | hh
            · simp at hh
            · exact hh
          simpa [peStep] using
            ih { st with stdout := st.stdout ++ c } hto hs hk hv hm2
      | stderrData c =>
          simp only [validEvents] at hv
          have hm2 : PEvent.timerFire ∈ rest := by
            rcases List.mem_cons.mp hm with hh | hh
            · simp at hh
            · exact hh
          simpa [peStep] using
            ih { st with stderr := st.stderr ++ c } hto hs hk hv hm2
      | errorEvent m =>
          simp only [validEvents] at hv
          have hm2 : PEvent.timerFire ∈ rest := by
            rcases List.mem_cons.mp hm with hh | hh
            · simp at hh
            · exact hh
          exact absurd hm2 (noFire_of_inactive rest hv)
      | closeEvent c =>
          simp only [validEvents] at hv
          have hm2 : PEvent.timerFire ∈ rest := by
            rcases List.mem_cons.mp hm with hh | hh
            · simp at hh
            · exact hh
          exact absurd hm2 (noFire_of_inactive rest hv)

/-- C1: the claim fails on the code. `completeJob` checks only that the job
exists, not that it is still `running`; a `completeJob` arriving after a
successful `cancelJob` overwrites the terminal `cancelled` state with
`completed`, installs a result and bumps `completedAt` — a second terminal
transition. Concretely: create job `j1` at time 0, cancel it at time 1
(status becomes `cancelled`), then `completeJob` at time 2 flips the status
to `completed`. -/
theorem completeJob_overwrites_cancelled :
    (getJob (cancelJob
        (createJob (initJobManager Nat 3600000) "j1" "execute_query" none 0).1
        "j1" 1).1 "j1").map JobState.status = some JobStatus.cancelled
    ∧ getJob (completeJob (cancelJob
          (createJob (initJobManager Nat 3600000) "j1" "execute_query" none 0).1
          "j1" 1).1 "j1" 2 42) "j1" =
        some { id := "j1", status := JobStatus.completed, startedAt := 0,
               completedAt := some 2, result := some 42,
               error := some jobCancelledError, toolName := "execute_query",
               connectionStringHash := none } := by
  decide

/-- C2: when the handler settles before the threshold timer
(`race = handlerFirst`), the wrapper propagates the very
fulfilment value or thrown error unchanged to the caller and leaves the
Job Store exactly as it was — no record is created. -/
theorem withBackgroundSupport_fast_path {R : Type} (toolName : String)
    (threshold : Int) (input : WrapInput) (st : JobManagerState R)
    (o : HandlerOutcome R) (jobId : String) (now : Int) :
    (withBackgroundSupport toolName threshold input st (.handlerFirst o) jobId now).2 = st
    ∧ (∀ r : R, o = .ok r →
        (withBackgroundSupport toolName threshold input st (.handlerFirst o) jobId now).1
          = WrapOutcome.value r)
    ∧ (∀ e : JsErrorValue, o = .err e →
        (withBackgroundSupport toolName threshold input st (.handlerFirst o) jobId now).1
          = WrapOutcome.thrown e) := by
  refine ⟨?_, ?_, ?_⟩
  · cases o <;> simp [withBackgroundSupport]
  · intro r hr; subst hr; simp [withBackgroundSupport]
  · intro e he; subst he; simp [withBackgroundSupport]

/-- C2 witness: a handler fulfilment with value 7 before the threshold is
returned as-is and the store is untouched. -/
theorem withBackgroundSupport_fast_path_witness :
    (withBackgroundSupport "execute_query" 30000 { connection_string := none }
        (initJobManager Nat 3600000) (.handlerFirst (.ok 7)) "j1" 0).2
      = initJobManager Nat 3600000
    ∧ (withBackgroundSupport "execute_query" 30000 { connection_string := none }
        (initJobManager Nat 3600000) (.handlerFirst (.ok 7)) "j1" 0).1
      = WrapOutcome.value 7 :=
  have h := withBackgroundSupport_fast_path "execute_query" 30000
    { connection_string := none } (initJobManager Nat 3600000)
    (HandlerOutcome.ok 7) "j1" 0
  ⟨h.1, h.2.1 7 rfl⟩

/-- C3: when the threshold timer wins the race, the wrapper immediately
returns a `BackgroundJobResponse` with status `"background"` and the fresh
job id; the store then holds a `running` record for that id with a
registered, *not aborted* cancellation handle; and when the handler later
settles, `backgroundSettle` records `completed` with the exact handler
fulfilment value, or `failed` with the `formatMcpError`-formatted error,
both retrievable via `getJob`. -/
theorem withBackgroundSupport_promotion {R : Type} (toolName : String)
    (threshold : Int) (input : WrapInput) (st : JobManagerState R)
    (jobId : String) (now now2 : Int) :
    (withBackgroundSupport toolName threshold input st .timerFirst jobId now).1
      = WrapOutcome.background
          { status := "background", job_id := jobId,
            message := backgroundMessage threshold, started_at := now }
    ∧ getJob (withBackgroundSupport toolName threshold input st .timerFirst jobId now).2 jobId
      = some { id := jobId, status := JobStatus.running, startedAt := now,
               completedAt := none, result := none, error := none,
               toolName := toolName,
               connectionStringHash := computeConnectionHash input }
    ∧ mget (withBackgroundSupport toolName threshold input st .timerFirst jobId now).2.jobCancellers jobId
      = some false
    ∧ (∀ r : R,
        getJob (backgroundSettle
            (withBackgroundSupport toolName threshold input st .timerFirst jobId now).2
            jobId (.ok r) now2) jobId
          = some { id := jobId, status := JobStatus.completed, startedAt := now,
                   completedAt := some now2, result := some r, error := none,
                   toolName := toolName,
                   connectionStringHash := computeConnectionHash input })
    ∧ (∀ e : JsErrorValue,
        getJob (backgroundSettle
            (withBackgroundSupport toolName threshold input st .timerFirst jobId now).2
            jobId (.err e) now2) jobId
          = some { id := jobId, status := JobStatus.failed, startedAt := now,
                   completedAt := some now2, result := none,
                   error := some (formatMcpError e []), toolName := toolName,
                   connectionStringHash := computeConnectionHash input }) := by
  refine ⟨rfl, ?_, ?_, ?_, ?_⟩
  · simp [withBackgroundSupport, createJob, setJobCanceller, getJob, mget_mset_self]
  · simp [withBackgroundSupport, createJob, setJobCanceller, mget_mset_self]
  · intro r
    simp [withBackgroundSupport, createJob, setJobCanceller, backgroundSettle,
      completeJob, getJob, mget_mset_self]
  · intro e
    simp [withBackgroundSupport, createJob, setJobCanceller, backgroundSettle,
      failJob, getJob, mget_mset_self]

/-- C6: `completeJob` and `failJob` on an id absent from the store are
total functions (no exception path exists) and return the store completely
unchanged. -/
theorem completeJob_failJob_unknown_id {α : Type} (st : JobManagerState α)
    (id : String) (now1 now2 : Int) (r : α) (e : McpError)
    (h : mget st.jobs id = none) :
    completeJob st id now1 r = st ∧ failJob st id now2 e = st := by
  constructor
  · simp [completeJob, h]
  · simp [failJob, h]

/-- C6 witness: the empty store is unchanged by `completeJob`/`failJob` on
an unknown id. -/
theorem completeJob_failJob_unknown_id_witness :
    completeJob (initJobManager Nat 3600000) "zz" 1 0 = initJobManager Nat 3600000
    ∧ failJob (initJobManager Nat 3600000) "zz" 2 jobCancelledError
      = initJobManager Nat 3600000 :=
  completeJob_failJob_unknown_id (initJobManager Nat 3600000) "zz" 1 2 0
    jobCancelledError (by decide)

/-- C5: the three-way contract of `cancelJob`. An unknown id fails with the
"not found" message and no state change; a terminal job fails with the
"not running" message and no state change; a `running` job has its
registered canceller aborted (when one exists), is transitioned to
`cancelled` with the `JobCancelled` payload and completion timestamp `now`,
and success is reported — after which `getJob` shows `cancelled` and a
second `cancelJob` on the same id reports not running without touching the
state again. -/
theorem cancelJob_spec {α : Type} (st : JobManagerState α) (id : String)
    (now now2 : Int) :
    (mget st.jobs id = none →
      cancelJob st id now = (st, { success := false, message := "Job not found: " ++ id }))
    ∧ (∀ job : JobState α, mget st.jobs id = some job →
        job.status ≠ JobStatus.running →
        cancelJob st id now =
          (st, { success := false,
                 message := "Job is not running (status: " ++ statusString job.status ++ ")" }))
    ∧ (∀ job : JobState α, mget st.jobs id = some job →
        job.status = JobStatus.running →
        (cancelJob st id now).2 =
            { success := true, message := "Job " ++ id ++ " cancelled successfully" }
          ∧ getJob (cancelJob st id now).1 id =
              some { job with status := JobStatus.cancelled, completedAt := some now,
                              error := some jobCancelledError }
          ∧ mget (cancelJob st id now).1.jobCancellers id =
              (mget st.jobCancellers id).map (fun _ => true)
          ∧ (cancelJob (cancelJob st id now).1 id now2).2 =
              { success := false, message := "Job is not running (status: cancelled)" }
          ∧ (cancelJob (cancelJob st id now).1 id now2).1 = (cancelJob st id now).1) := by
  refine ⟨fun h => by simp [cancelJob, h], fun job hj hs => by simp [cancelJob, hj, hs], ?_⟩
  intro job hj hs
  have hcancel : cancelJob st id now =
      ({ st with
         jobs := mset st.jobs id
           { job with status := JobStatus.cancelled, completedAt := some now,
                      error := some jobCancelledError },
         jobCancellers :=
           match mget st.jobCancellers id with
           | some _ => mset st.jobCancellers id true
           | none => st.jobCancellers },
       { success := true, message := "Job " ++ id ++ " cancelled successfully" }) := by
    simp [cancelJob, hj, hs]
  rw [hcancel]
  refine ⟨rfl, ?_, ?_, ?_, ?_⟩
  · simpa [getJob] using mget_mset_self st.jobs id _
  · cases hc : mget st.jobCancellers id with
    | none => simp [hc]
    | some b => simp [hc, mget_mset_self]
  · have hg := mget_mset_self st.jobs id
      { job with status := JobStatus.cancelled, completedAt := some now,
                 error := some jobCancelledError }
    simp [cancelJob, hg, statusString]
  · have hg := mget_mset_self st.jobs id
      { job with status := JobStatus.cancelled, completedAt := some now,
                 error := some jobCancelledError }
    simp [cancelJob, hg]

/-- C5 witness: cancelling a running job `j1` with a registered canceller
succeeds, flips the record to `cancelled`, aborts the canceller, and a
repeated cancel reports not running. -/
theorem cancelJob_spec_witness :
    (cancelJob
        (JobManagerState.mk
          [("j1", JobState.mk "j1" JobStatus.running 0 none none none "execute_query" none)]
          [("j1", false)] 3600000 : JobManagerState Nat) "j1" 5).2 =
      { success := true, message := "Job j1 cancelled successfully" }
    ∧ mget (cancelJob
        (JobManagerState.mk
          [("j1", JobState.mk "j1" JobStatus.running 0 none none none "execute_query" none)]
          [("j1", false)] 3600000 : JobManagerState Nat) "j1" 5).1.jobCancellers "j1" = some true
    ∧ (cancelJob (cancelJob
        (JobManagerState.mk
          [("j1", JobState.mk "j1" JobStatus.running 0 none none none "execute_query" none)]
          [("j1", false)] 3600000 : JobManagerState Nat) "j1" 5).1 "j1" 6).2 =
      { success := false, message := "Job is not running (status: cancelled)" } := by
  have h := (cancelJob_spec
    (JobManagerState.mk
      [("j1", JobState.mk "j1" JobStatus.running 0 none none none "execute_query" none)]
      [("j1", false)] 3600000 : JobManagerState Nat) "j1" 5 6).2.2
    (JobState.mk "j1" JobStatus.running 0 none none none "execute_query" none)
    (by decide) rfl
  exact ⟨h.1, by rw [h.2.2.1]; decide, h.2.2.2.1⟩

/-- C7: one `cleanup` sweep at time `now` removes exactly the jobs that are
terminal (status not `running` and `completedAt` set) whose age
`now - completedAt` strictly exceeds the configured TTL, and a `running`
job survives every sweep regardless of how long ago it started. -/
theorem cleanup_removes_exactly_expired {α : Type} (st : JobManagerState α)
    (now : Int) (id : String) (job : JobState α) (hwf : MapWF st.jobs)
    (hget : mget st.jobs id = some job) :
    (getJob (cleanup st now) id = none ↔
        job.status ≠ JobStatus.running ∧
          ∃ t, job.completedAt = some t ∧ now - t > st.resultTTL)
    ∧ (job.status = JobStatus.running → getJob (cleanup st now) id = some job) := by
  have hf := mget_filter st.jobs (fun p => ! shouldExpire now st.resultTTL p.2) id hwf
  rw [hget] at hf
  have hcond : shouldExpire now st.resultTTL job = true ↔
      (job.status ≠ JobStatus.running ∧
        ∃ t, job.completedAt = some t ∧ now - t > st.resultTTL) := by
    unfold shouldExpire
    by_cases hr : job.status = JobStatus.running
    · simp [hr]
    · cases hc : job.completedAt with
      | none => simp [hr, hc]
      | some t => simp [hr, hc]
  have hmain : getJob (cleanup st now) id =
      (if shouldExpire now st.resultTTL job then none else some job) := by
    show mget (st.jobs.filter (fun p => ! shouldExpire now st.resultTTL p.2)) id = _
    rw [hf]
    by_cases he : shouldExpire now st.resultTTL job
    · simp [he]
    · simp [he]
  constructor
  · rw [hmain]
    by_cases he : shouldExpire now st.resultTTL job
    · simp [he, hcond.mp he]
    · simp only [he, if_false, Bool.false_eq_true, if_neg]
      constructor
      · intro hcontra; exact absurd hcontra (by simp)
      · intro hcontra; exact absurd (hcond.mpr hcontra) he
  · intro hr
    have he : shouldExpire now st.resultTTL job = false := by
      simp [shouldExpire, hr]
    rw [hmain, he]
    simp

/-- C7 witness: with TTL 100, a sweep at time 5000 deletes a job completed
at time 0 but keeps a running job started far in the past. -/
theorem cleanup_removes_exactly_expired_witness :
    getJob (cleanup
      (JobManagerState.mk
        [("a", JobState.mk "a" JobStatus.completed 0 (some 0) (some 1) none "t" none),
         ("b", JobState.mk "b" JobStatus.running (-999999) none none none "t" none)]
        [] 100 : JobManagerState Nat) 5000) "a" = none
    ∧ getJob (cleanup
      (JobManagerState.mk
        [("a", JobState.mk "a" JobStatus.completed 0 (some 0) (some 1) none "t" none),
         ("b", JobState.mk "b" JobStatus.running (-999999) none none none "t" none)]
        [] 100 : JobManagerState Nat) 5000) "b" =
      some (JobState.mk "b" JobStatus.running (-999999) none none none "t" none) := by
  have h1 := cleanup_removes_exactly_expired
    (JobManagerState.mk
      [("a", JobState.mk "a" JobStatus.completed 0 (some 0) (some 1) none "t" none),
       ("b", JobState.mk "b" JobStatus.running (-999999) none none none "t" none)]
      [] 100 : JobManagerState Nat) 5000 "a"
    (JobState.mk "a" JobStatus.completed 0 (some 0) (some 1) none "t" none)
    (by decide) (by decide)
  have h2 := cleanup_removes_exactly_expired
    (JobManagerState.mk
      [("a", JobState.mk "a" JobStatus.completed 0 (some 0) (some 1) none "t" none),
       ("b", JobState.mk "b" JobStatus.running (-999999) none none none "t" none)]
      [] 100 : JobManagerState Nat) 5000 "b"
    (JobState.mk "b" JobStatus.running (-999999) none none none "t" none)
    (by decide) (by decide)
  exact ⟨h1.1.mpr ⟨by decide, 0, rfl, by decide⟩, h2.2 rfl⟩

/-- C4: for a positive deadline, on any runtime-valid event sequence in
which the timer fires (the process has not exited by the deadline — the
timer could only fire because no `close`/`error` event preceded it), the
operation settles exactly once: the single settlement is the rejection
with the timeout condition carrying the configured deadline and the
invoked command truncated to 100 characters, exactly one kill signal is
sent to the process group, and no later `close`, `error` or stream event
resolves or rejects the operation again. (The abstract `ProcessTimeout`
condition of the spec is the `QueryTimeout` error of the code.) -/
theorem executeUsqlCommand_timeout_settles_once (command : String) (t : Int)
    (events : List PEvent) (ht : 0 < t) (hv : ValidTrace (some t) events)
    (hm : PEvent.timerFire ∈ events) :
    (runExecutor command (some t) events).settleAttempts
        = [SettleAttempt.rejectUsql (queryTimeoutError t command)]
      ∧ (runExecutor command (some t) events).killsSent = 1 := by
  have harmed : timerArmed (some t) = true := by simp [timerArmed, ht]
  have hv2 : validEvents events true = true := by
    have := hv
    rw [ValidTrace, harmed] at this
    exact this
  exact foldl_fire command t ht events initPE rfl rfl rfl hv2 hm

/-- C4 witness: with deadline 5 on the trace "stdout chunk, timer fires,
late close with exit code 1", the run settles once with the timeout
rejection and one kill is sent. -/
theorem executeUsqlCommand_timeout_settles_once_witness :
    (0 : Int) < 5
    ∧ ValidTrace (some 5)
        [PEvent.stdoutData "a", PEvent.timerFire, PEvent.closeEvent (some 1)]
    ∧ PEvent.timerFire ∈
        [PEvent.stdoutData "a", PEvent.timerFire, PEvent.closeEvent (some 1)]
    ∧ (runExecutor "usql" (some 5)
        [PEvent.stdoutData "a", PEvent.timerFire, PEvent.closeEvent (some 1)]).settleAttempts
        = [SettleAttempt.rejectUsql (queryTimeoutError 5 "usql")]
    ∧ (runExecutor "usql" (some 5)
        [PEvent.stdoutData "a", PEvent.timerFire, PEvent.closeEvent (some 1)]).killsSent = 1 :=
  have h := executeUsqlCommand_timeout_settles_once "usql" 5
    [PEvent.stdoutData "a", PEvent.timerFire, PEvent.closeEvent (some 1)]
    (by decide) (by decide) (by decide)
  ⟨by decide, by decide, by decide, h.1, h.2⟩

/-- C10: when no timeout has fired, a `close` event delivering a `null`
exit code (signal-terminated process) resolves the operation successfully
with `exitCode = 0` — producing exactly the same step as a `close` event
with exit code `0`, so the two are indistinguishable to the caller. -/
theorem closeNull_resolves_exitCode_zero (command : String) (t : Option Int)
    (st : PEState) (h : st.timedOut = false) :
    peStep command t st (.closeEvent none) =
      { st with settleAttempts := st.settleAttempts ++
          [SettleAttempt.resolve
            { stdout := st.stdout, stderr := st.stderr, exitCode := 0 }] }
    ∧ peStep command t st (.closeEvent none) =
        peStep command t st (.closeEvent (some 0)) := by
  constructor
  · simp [peStep, h, jsOrZero]
  · simp [peStep, h, jsOrZero]

/-- C10 witness: from the initial state, a `null`-code close resolves with
exit code 0. -/
theorem closeNull_resolves_exitCode_zero_witness :
    initPE.timedOut = false
    ∧ peStep "usql" none initPE (.closeEvent none) =
        { initPE with settleAttempts :=
            [SettleAttempt.resolve { stdout := "", stderr := "", exitCode := 0 }] } :=
  have h := closeNull_resolves_exitCode_zero "usql" none initPE rfl
  ⟨rfl, h.1⟩

/-- C8 counterexample: the claim that `JobNotFound` is never thrown as a
fault from the status operation is false. On an empty store,
`handleGetJobStatus` for id `"j1"` rethrows (models as `Except.error`) the
formatted `JobNotFound` error instead of returning a structured result. -/
theorem handleGetJobStatus_throws_jobNotFound :
    handleGetJobStatus (fun _ : Nat => true) (initJobManager Nat 3600000) 0 "j1" 5 =
      Except.error
        { error := "JobNotFound"
          message := "Job not found: j1. The job may have completed and been cleaned up (default cleanup: 1 hour)."
          details := some [("jobId", "j1")] } := by
  rfl

/-- C8 amended: the cancellation operation returns `JobNotFound` and
`JobNotRunning` as structured results (`status = not_found` /
`not_running`) and never throws them; the job-status query operation,
by contrast, reports an unknown id by throwing the formatted `JobNotFound`
error as a fault. -/
theorem jobStoreFailures_structured {α : Type} (truthy : α → Bool)
    (st : JobManagerState α) (now : Int) (id : String) (w : Int)
    (hid : id ≠ "") (hw1 : 1 ≤ w) (hw2 : w ≤ 55) :
    (∀ e : McpError, handleCancelJob st id now ≠ Except.error e)
    ∧ (∀ resp : CancelJobResponse, ∀ st2 : JobManagerState α,
        handleCancelJob st id now = Except.ok (resp, st2) →
          (mget st.jobs id = none → resp.status = CancelStatus.not_found)
          ∧ (∀ job : JobState α, mget st.jobs id = some job →
              job.status ≠ JobStatus.running →
              resp.status = CancelStatus.not_running))
    ∧ (mget st.jobs id = none →
        handleGetJobStatus truthy st now id w = Except.error (jobNotFoundFault id)) := by
  have hwv : ¬ (w < 1 ∨ w > 55) := by omega
  refine ⟨?_, ?_, ?_⟩
  · intro e
    rcases hm : mget st.jobs id with _ | job
    · simp [handleCancelJob, hid, cancelJob, hm, getJob]
    · by_cases hr : job.status = JobStatus.running
      · simp [handleCancelJob, hid, cancelJob, hm, hr]
      · simp [handleCancelJob, hid, cancelJob, hm, hr, getJob]
  · intro resp st2 hok
    rcases hm : mget st.jobs id with _ | job
    · constructor
      · intro _
        rw [show handleCancelJob st id now =
            Except.ok ({ status := CancelStatus.not_found, job_id := id,
                         message := "Job not found: " ++ id }, st)
            from by simp [handleCancelJob, hid, cancelJob, hm, getJob]] at hok
        injection hok with hok
        have : resp = { status := CancelStatus.not_found, job_id := id,
                        message := "Job not found: " ++ id } :=
          congrArg Prod.fst hok.symm
        rw [this]
      · intro job hj
        simp at hj
    · constructor
      · intro hnone
        simp at hnone
      · intro job2 hj hs
        injection hj with hj
        subst hj
        rw [show handleCancelJob st id now =
            Except.ok ({ status := CancelStatus.not_running, job_id := id,
                         message := "Job is not running (status: " ++ statusString job.status ++ ")" }, st)
            from by simp [handleCancelJob, hid, cancelJob, hm, hs, getJob]] at hok
        injection hok with hok
        have : resp = { status := CancelStatus.not_running, job_id := id,
                        message := "Job is not running (status: " ++ statusString job.status ++ ")" } :=
          congrArg Prod.fst hok.symm
        rw [this]
  · intro hm
    simp [handleGetJobStatus, hid, hwv, getJob, hm]

/-- C8 witness: on the empty store with id `"j1"`, the cancel handler
returns structurally (`not_found`) and the status handler throws. -/
theorem jobStoreFailures_structured_witness :
    (∀ e : McpError,
      handleCancelJob (initJobManager Nat 3600000) "j1" 0 ≠ Except.error e)
    ∧ handleGetJobStatus (fun _ : Nat => true) (initJobManager Nat 3600000) 0 "j1" 5
        = Except.error (jobNotFoundFault "j1") :=
  have h := jobStoreFailures_structured (fun _ : Nat => true)
    (initJobManager Nat 3600000) 0 "j1" 5 (by decide) (by decide) (by decide)
  ⟨h.1, h.2.2 rfl⟩

/-- C9: the claim fails on the code. The stored `connectionHash` is
`Buffer.from(connStr).toString("base64").substring(0, 16)` — a truncated
base64 *encoding*, not a hash. For the 8-byte connection string
`"pg://usr"` the stored value is `"cGc6Ly91c3I="`, and base64-decoding that
stored value recovers the raw connection string exactly, contradicting
"the raw connection string cannot be recovered from the stored value"
(for any connection string of at most 12 bytes the whole credential is
recoverable; for longer ones, its first 12 bytes). -/
theorem connectionHash_is_reversible :
    computeConnectionHash { connection_string := some "pg://usr" } = some "cGc6Ly91c3I="
    ∧ String.mk ((b64Decode "cGc6Ly91c3I=".data).map Char.ofNat) = "pg://usr" := by
  constructor
  · rfl
  · rfl
